import Mathlib

/-!
Shallow embedding of the health-check aggregator of the `vitals` repository
(`src/health.go`, together with the earlier handler evolution in
`src/unnamed/part_002`).

Go contexts are modelled time-explicitly: a context is either an inbound
(root) request context that may have been cancelled at some instant, or a
deadline child derived from a parent via `context.WithTimeout` /
`context.WithDeadline`.  `Err()` is a function of the context and of the
instant at which it is inspected.  Wall-clock instants and Go
`time.Duration` values (int64 nanoseconds) are modelled as `Int`.
-/

namespace Vitals

/-- `type Status string` (src/health.go line 12): an open string type,
not a closed enumeration. -/
abbrev Status := String

/-- `StatusOK Status = "ok"` (src/health.go line 16). -/
def statusOK : Status := "ok"

/-- `StatusError Status = "error"` (src/health.go line 18). -/
def statusError : Status := "error"

/-- A Go `context.Context` as the health code uses it: the inbound request
context (which may get cancelled at some instant), or a deadline-bearing
child produced by `context.WithTimeout`/`WithDeadline`. -/
inductive GoContext where
  | root (cancelledAt : Option Int)
  | withDeadline (parent : GoContext) (deadline : Int)
deriving DecidableEq, Repr

/-- `ctx.Err()` inspected at instant `t`: a root context reports
"context canceled" once its cancellation instant has passed; a deadline
child propagates its parent's error and otherwise reports
"context deadline exceeded" once its own deadline has passed.  Mirrors the
`context` package semantics the health code relies on. -/
def GoContext.errAt : GoContext → Int → Option String
  | .root cancelledAt, t =>
    match cancelledAt with
    | some c => if c ≤ t then some "context canceled" else none
    | none => none
  | .withDeadline parent deadline, t =>
    match parent.errAt t with
    | some e => some e
    | none => if deadline ≤ t then some "context deadline exceeded" else none

/-- `CheckResponse` (src/health.go lines 35-40). -/
structure CheckResponse where
  name : String
  status : Status
  message : String
  duration : String
deriving DecidableEq, Repr

/-- The zero value of `CheckResponse`, as produced by
`make([]CheckResponse, n)` in `runAllChecks`. -/
def CheckResponse.zero : CheckResponse :=
  { name := "", status := "", message := "", duration := "" }

/-- The `Checker` interface (src/health.go lines 43-46): `Name()` and
`Check(ctx) (Status, string)`. -/
structure Checker where
  name : String
  check : GoContext → Status × String

/-- `readyConfig` of src/unnamed/part_002 lines 48-51; the current
src/health.go `readyConfig` (lines 48-50) keeps only `overallTimeout`. -/
structure readyConfig where
  overallTimeout : Int
  perCheckTimeout : Int
deriving DecidableEq, Repr

/-- Modelled from the spec: the `duration` field is "elapsed wall time as a
formatted interval", produced by Go's `time.Duration.String` (standard
library, not part of src/), which renders a zero duration as "0s" and any
other duration as a non-empty decimal number with a unit suffix.  We keep
the rendering abstract as the signed nanosecond count with a unit, which
preserves what the spec states about the field: it is non-empty and
determined solely by the elapsed time. -/
def durationString (ns : Int) : String :=
  if ns = 0 then "0s" else toString ns ++ "ns"

/-- `runCheck` (src/health.go lines 52-74); the same logic appears inline in
src/unnamed/part_002 lines 146-154.  `tStart` is the instant `start :=
time.Now()` is taken, `tEnd` the instant the check returns, at which
`ctx.Err()` is inspected and `time.Since(start)` is captured. -/
def runCheck (ctx : GoContext) (chk : Checker) (tStart tEnd : Int) : CheckResponse :=
  let r := chk.check ctx
  let status0 := r.1
  let msg0 := r.2
  let err := ctx.errAt tEnd
  let sm :=
    match err with
    | some e =>
      if status0 = statusOK then
        (statusError, if msg0 = "" then e else msg0 ++ "; " ++ e)
      else
        (status0, msg0)
    | none => (status0, msg0)
  { name := chk.name
    status := sm.1
    message := sm.2
    duration := durationString (tEnd - tStart) }

/-- `contextWithTimeoutIfNeeded` (src/health.go lines 201-210).  Returns the
(possibly derived) context together with whether a cancel function was
returned (`cancel != nil`).  `context.WithTimeout(ctx, d)` at instant `now`
is `context.WithDeadline(ctx, now + d)`. -/
def contextWithTimeoutIfNeeded (ctx : GoContext) (duration : Int) (now : Int) :
    GoContext × Bool :=
  if duration ≤ 0 then
    (ctx, false)
  else
    (GoContext.withDeadline ctx (now + duration), true)

/-- The per-check context derivation of src/unnamed/part_002 lines 138-144:
`cctx := ctx; if cfg.perCheckTimeout > 0 { cctx, _ = context.WithTimeout(ctx,
cfg.perCheckTimeout) }`. -/
def perCheckContext (ctx : GoContext) (perCheckTimeout : Int) (now : Int) : GoContext :=
  if perCheckTimeout > 0 then
    GoContext.withDeadline ctx (now + perCheckTimeout)
  else
    ctx

/-- A schedule assigns to each checker index the instants at which its
goroutine records `start := time.Now()` and at which its `Check` returns. -/
abbrev Sched := Nat → Int × Int

/-- The body of the goroutine dispatched for checker index `i` in
`runAllChecks` (src/health.go lines 220-222):
`responses[checkerIndex] = runCheck(ctx, chk)` — a write into slot `i`
only, leaving every other slot untouched. -/
def writeSlot (ctx : GoContext) (checkers : List Checker) (sched : Sched)
    (responses : List CheckResponse) (i : Nat) : List CheckResponse :=
  match checkers.get? i with
  | some chk => responses.set i (runCheck ctx chk (sched i).1 (sched i).2)
  | none => responses

/-- `runAllChecks` (src/health.go lines 212-228): a result slice pre-sized
with `make([]CheckResponse, len(checkers))` (zero values), one goroutine per
checker writing `responses[checkerIndex] = runCheck(ctx, chk)` into its own
slot, joined by a `sync.WaitGroup`.  `order` is the order in which the
goroutines perform their slot writes (any completion order; the WaitGroup
guarantees each dispatched goroutine runs exactly once, so `order` is a
permutation of the index range); `sched` gives each goroutine its dispatch
and completion instants. -/
def runAllChecks (ctx : GoContext) (checkers : List Checker) (sched : Sched)
    (order : List Nat) : List CheckResponse :=
  order.foldl (writeSlot ctx checkers sched)
    (List.replicate checkers.length CheckResponse.zero)

/-- `overallStatus` (src/health.go lines 230-238). -/
def overallStatus : List CheckResponse → Status
  | [] => statusOK
  | c :: rest => if c.status ≠ statusOK then statusError else overallStatus rest

/-- `LiveResponse` (src/health.go lines 22-24). -/
structure LiveResponse where
  status : Status
deriving DecidableEq, Repr

/-- `ReadyResponse` (src/health.go lines 27-32). -/
structure ReadyResponse where
  status : Status
  checks : List CheckResponse
  version : String
  environment : String
deriving DecidableEq, Repr

/-- A response value handed to the JSON encoder (`payload any` in
`respondJSON`). -/
inductive Payload where
  | live (r : LiveResponse)
  | ready (r : ReadyResponse)
deriving DecidableEq, Repr

/-- One structured log event emitted through `slog.ErrorContext` with
`handler`, `route`, `status` and `error` attributes
(src/unnamed/part_002 lines 96-103 and 184-191). -/
structure LogEvent where
  handler : String
  route : String
  status : Nat
  err : String
deriving DecidableEq, Repr

/-- The observable state of an `http.ResponseWriter`: response headers, the
status code passed to the first `WriteHeader` call, and the successfully
encoded body values. -/
structure ResponseWriter where
  headers : List (String × String)
  wroteStatus : Option Nat
  body : List Payload
deriving DecidableEq, Repr

/-- A fresh recorder: nothing written yet. -/
def ResponseWriter.fresh : ResponseWriter :=
  { headers := [], wroteStatus := none, body := [] }

/-- `Header().Set(key, value)`: replaces any previous value for the key. -/
def setHeader (headers : List (String × String)) (key value : String) :
    List (String × String) :=
  (headers.filter (fun kv => kv.1 ≠ key)) ++ [(key, value)]

/-- `WriteHeader(code)`: only the first call takes effect (later calls are
no-ops per net/http). -/
def writeHeader (w : ResponseWriter) (code : Nat) : ResponseWriter :=
  match w.wroteStatus with
  | some _ => w
  | none => { w with wroteStatus := some code }

/-- `disableResponseCacheHeaders` (src/health.go lines 251-255). -/
def disableResponseCacheHeaders (w : ResponseWriter) : ResponseWriter :=
  let h := setHeader w.headers "Cache-Control" "no-store, no-cache"
  let h := setHeader h "Pragma" "no-cache"
  let h := setHeader h "Expires" "Thu, 01 Jan 1970 00:00:00 GMT"
  { w with headers := h }

/-- `respondJSON` (src/health.go lines 240-248): sets Content-Type, writes
the status line, then streams the JSON body.  `encodeErr` is the outcome of
`json.NewEncoder(writer).Encode(payload)`; the code discards it
(`_ = ...`), so no log event is emitted either way.  The ambient log `logs`
is threaded through to make that observable. -/
def respondJSON (w : ResponseWriter) (logs : List LogEvent) (statusCode : Nat)
    (payload : Payload) (encodeErr : Option String) :
    ResponseWriter × List LogEvent :=
  let w1 := { w with headers := setHeader w.headers "Content-Type" "application/json" }
  let w2 := writeHeader w1 statusCode
  match encodeErr with
  | none => ({ w2 with body := w2.body ++ [payload] }, logs)
  | some _ => (w2, logs)

/-- The body-encoding step of the earlier handler evolution, src/unnamed/
part_002 lines 180-193: `w.WriteHeader(statusCode)` followed by an `Encode`
whose failure is logged via `slog.ErrorContext` with handler "ready", route
"/health/ready", the intended status code and the error. -/
def readyEncodePart002 (w : ResponseWriter) (logs : List LogEvent)
    (statusCode : Nat) (payload : Payload) (encodeErr : Option String) :
    ResponseWriter × List LogEvent :=
  let w2 := writeHeader w statusCode
  match encodeErr with
  | none => ({ w2 with body := w2.body ++ [payload] }, logs)
  | some e =>
    (w2, logs ++ [{ handler := "ready", route := "/health/ready",
                    status := statusCode, err := e }])

/-- `LiveHandlerFunc` (src/health.go lines 133-140): always responds 200
with `LiveResponse{Status: StatusOK}`. -/
def liveHandler (w : ResponseWriter) (logs : List LogEvent)
    (encodeErr : Option String) : ResponseWriter × List LogEvent :=
  let response : LiveResponse := { status := statusOK }
  let w := disableResponseCacheHeaders w
  respondJSON w logs 200 (Payload.live response) encodeErr

/-- `readyHandler` (src/health.go lines 167-199): derives the overall
context, runs all checks, reduces the aggregate status, picks 200 or 503,
and responds.  `now` is the instant the handler starts; `sched` and `order`
describe the goroutine scheduling of this invocation. -/
def readyHandler (reqCtx : GoContext) (cfg : readyConfig)
    (version environment : String) (checkers : List Checker) (now : Int)
    (sched : Sched) (order : List Nat) (w : ResponseWriter)
    (logs : List LogEvent) (encodeErr : Option String) :
    ResponseWriter × List LogEvent :=
  let ctx := (contextWithTimeoutIfNeeded reqCtx cfg.overallTimeout now).1
  let checks := runAllChecks ctx checkers sched order
  let response0 : ReadyResponse :=
    { status := statusOK, checks := checks,
      version := version, environment := environment }
  let response := { response0 with status := overallStatus checks }
  let statusCode := if response.status ≠ statusOK then 503 else 200
  let w := disableResponseCacheHeaders w
  respondJSON w logs statusCode (Payload.ready response) encodeErr

/-! Helper lemmas about the disjoint-slot fold of `runAllChecks`. -/

theorem writeSlot_length (ctx : GoContext) (checkers : List Checker) (sched : Sched)
    (responses : List CheckResponse) (i : Nat) :
    (writeSlot ctx checkers sched responses i).length = responses.length := by
  unfold writeSlot
  cases checkers.get? i with
  | none => rfl
  | some chk => exact List.length_set ..

theorem foldl_writeSlot_length (ctx : GoContext) (checkers : List Checker) (sched : Sched)
    (order : List Nat) (init : List CheckResponse) :
    (order.foldl (writeSlot ctx checkers sched) init).length = init.length := by
  induction order generalizing init with
  | nil => rfl
  | cons j rest ih =>
    simp only [List.foldl_cons]
    rw [ih, writeSlot_length]

theorem writeSlot_getElem_ne (ctx : GoContext) (checkers : List Checker) (sched : Sched)
    (responses : List CheckResponse) {i j : Nat} (hne : j ≠ i) :
    (writeSlot ctx checkers sched responses j)[i]? = responses[i]? := by
  unfold writeSlot
  cases checkers.get? j with
  | none => rfl
  | some chk => exact List.getElem?_set_ne hne

theorem foldl_writeSlot_not_mem (ctx : GoContext) (checkers : List Checker) (sched : Sched)
    (order : List Nat) (init : List CheckResponse) {i : Nat} (h : i ∉ order) :
    (order.foldl (writeSlot ctx checkers sched) init)[i]? = init[i]? := by
  induction order generalizing init with
  | nil => rfl
  | cons j rest ih =>
    simp only [List.foldl_cons]
    have hji : j ≠ i := by
      intro he
      exact h (he ▸ List.mem_cons_self j rest)
    have hrest : i ∉ rest := fun hm => h (List.mem_cons_of_mem _ hm)
    rw [ih _ hrest, writeSlot_getElem_ne _ _ _ _ hji]

theorem foldl_writeSlot_mem (ctx : GoContext) (checkers : List Checker) (sched : Sched)
    (order : List Nat) (init : List CheckResponse) {i : Nat} (hmem : i ∈ order)
    (hi : i < checkers.length) (hlen : init.length = checkers.length) :
    (order.foldl (writeSlot ctx checkers sched) init)[i]? =
      (checkers.get? i).map (fun chk => runCheck ctx chk (sched i).1 (sched i).2) := by
  induction order generalizing init with
  | nil => cases hmem
  | cons j rest ih =>
    simp only [List.foldl_cons]
    by_cases hm : i ∈ rest
    · exact ih _ hm (by rw [writeSlot_length]; exact hlen)
    · have hij : i = j := by
        rcases List.mem_cons.mp hmem with h | h
        · exact h
        · exact absurd h hm
      subst hij
      rw [foldl_writeSlot_not_mem _ _ _ _ _ hm]
      unfold writeSlot
      cases hg : checkers.get? i with
      | none =>
        exact absurd (List.get?_eq_none.mp hg) (by omega)
      | some chk =>
        simp only [Option.map_some]
        exact List.getElem?_set_self (by omega)

theorem statusError_ne_statusOK : statusError ≠ statusOK := by decide

/-- C1: for every list of check results produced by a readiness invocation,
the aggregate status is OK if and only if every individual check status is
OK, and it is ERROR otherwise; with zero configured Checkers the result
sequence is empty and the aggregate status is OK. -/
theorem aggregate_status_ok_iff :
    (∀ checks : List CheckResponse,
        (overallStatus checks = statusOK ↔ ∀ c ∈ checks, c.status = statusOK)) ∧
    (∀ checks : List CheckResponse,
        overallStatus checks ≠ statusOK → overallStatus checks = statusError) ∧
    (∀ (ctx : GoContext) (sched : Sched) (order : List Nat),
        order.Perm (List.range 0) → runAllChecks ctx [] sched order = []) ∧
    overallStatus [] = statusOK := by
  refine ⟨?_, ?_, ?_, rfl⟩
  · intro checks
    induction checks with
    | nil => simp [overallStatus, statusOK]
    | cons c rest ih =>
      by_cases hc : c.status = statusOK
      · simp [overallStatus, hc, ih]
      · simp [overallStatus, hc, statusError_ne_statusOK]
  · intro checks
    induction checks with
    | nil => intro h; exact absurd rfl h
    | cons c rest ih =>
      by_cases hc : c.status = statusOK
      · simpa [overallStatus, hc] using ih
      · simp [overallStatus, hc]
  · intro ctx sched order hperm
    have horder : order = [] := List.Perm.eq_nil (by simpa using hperm)
    subst horder
    rfl

/-- Witness for C1 at concrete inputs. -/
theorem aggregate_status_ok_iff_witness :
    overallStatus [⟨"db", statusOK, "", "0s"⟩] = statusOK ∧
    overallStatus [⟨"db", statusError, "boom", "0s"⟩] = statusError ∧
    runAllChecks (GoContext.root none) [] (fun _ => (0, 0)) [] = [] := by
  refine ⟨?_, ?_, ?_⟩
  · exact (aggregate_status_ok_iff.1 [⟨"db", statusOK, "", "0s"⟩]).mpr (by decide)
  · exact aggregate_status_ok_iff.2.1 [⟨"db", statusError, "boom", "0s"⟩] (by decide)
  · exact aggregate_status_ok_iff.2.2.1 (GoContext.root none) (fun _ => (0, 0)) []
      (List.Perm.refl _)

/-- C2: the Check Runner overrides the result to ERROR and appends the
context error text (set if the checker message is empty, otherwise
concatenated after it separated by "; ") exactly when the context reports
an error and the checker returned OK; a checker that itself returns a
non-OK status has its status and message passed through unchanged, and so
does any checker when the context reports no error. -/
theorem runCheck_override_exactly_on_ok_with_ctx_error (ctx : GoContext) (chk : Checker)
    (tStart tEnd : Int) :
    (∀ e, ctx.errAt tEnd = some e → (chk.check ctx).1 = statusOK →
        (runCheck ctx chk tStart tEnd).status = statusError ∧
        (runCheck ctx chk tStart tEnd).message =
          (if (chk.check ctx).2 = "" then e else (chk.check ctx).2 ++ "; " ++ e)) ∧
    ((chk.check ctx).1 ≠ statusOK →
        (runCheck ctx chk tStart tEnd).status = (chk.check ctx).1 ∧
        (runCheck ctx chk tStart tEnd).message = (chk.check ctx).2) ∧
    (ctx.errAt tEnd = none →
        (runCheck ctx chk tStart tEnd).status = (chk.check ctx).1 ∧
        (runCheck ctx chk tStart tEnd).message = (chk.check ctx).2) := by
  refine ⟨?_, ?_, ?_⟩
  · intro e he hok
    simp [runCheck, he, hok]
  · intro hnok
    cases he : ctx.errAt tEnd with
    | none => simp [runCheck, he]
    | some e => simp [runCheck, he, hnok]
  · intro he
    simp [runCheck, he]

/-- Witness for C2 at a concrete input: a cancelled root context and a
checker claiming OK with an empty message. -/
theorem runCheck_override_witness :
    (runCheck (GoContext.root (some 0)) ⟨"db", fun _ => (statusOK, "")⟩ 0 5).status =
        statusError ∧
    (runCheck (GoContext.root (some 0)) ⟨"db", fun _ => (statusOK, "")⟩ 0 5).message =
        "context canceled" := by
  have h := (runCheck_override_exactly_on_ok_with_ctx_error (GoContext.root (some 0))
    ⟨"db", fun _ => (statusOK, "")⟩ 0 5).1 "context canceled" (by decide) rfl
  exact ⟨h.1, by simpa using h.2⟩

/-- C3: for N input Checkers, the response sequence has exactly N entries
and the entry at index i is the result of the Checker at index i, for every
completion order of the dispatched goroutines (any permutation of the index
range). -/
theorem runAllChecks_preserves_input_order (ctx : GoContext) (checkers : List Checker)
    (sched : Sched) (order : List Nat)
    (hperm : order.Perm (List.range checkers.length)) :
    (runAllChecks ctx checkers sched order).length = checkers.length ∧
    ∀ i : Nat, (runAllChecks ctx checkers sched order)[i]? =
      (checkers.get? i).map (fun chk => runCheck ctx chk (sched i).1 (sched i).2) := by
  have hlen : (runAllChecks ctx checkers sched order).length = checkers.length := by
    unfold runAllChecks
    rw [foldl_writeSlot_length, List.length_replicate]
  refine ⟨hlen, ?_⟩
  intro i
  by_cases hi : i < checkers.length
  · have hmem : i ∈ order := hperm.mem_iff.mpr (List.mem_range.mpr hi)
    unfold runAllChecks
    exact foldl_writeSlot_mem ctx checkers sched order _ hmem hi
      (List.length_replicate ..)
  · rw [List.getElem?_eq_none (by omega), List.get?_eq_none.mpr (by omega)]
    rfl

/-- Witness for C3: two checkers completing in reversed order still land in
input order. -/
theorem runAllChecks_preserves_input_order_witness :
    (runAllChecks (GoContext.root none)
        [⟨"db", fun _ => (statusOK, "")⟩, ⟨"cache", fun _ => (statusOK, "")⟩]
        (fun _ => (0, 1)) [1, 0]).length = 2 ∧
    ∀ i : Nat, (runAllChecks (GoContext.root none)
        [⟨"db", fun _ => (statusOK, "")⟩, ⟨"cache", fun _ => (statusOK, "")⟩]
        (fun _ => (0, 1)) [1, 0])[i]? =
      (([⟨"db", fun _ => (statusOK, "")⟩, ⟨"cache", fun _ => (statusOK, "")⟩] :
          List Checker).get? i).map
        (fun chk => runCheck (GoContext.root none) chk 0 1) :=
  runAllChecks_preserves_input_order (GoContext.root none)
    [⟨"db", fun _ => (statusOK, "")⟩, ⟨"cache", fun _ => (statusOK, "")⟩]
    (fun _ => (0, 1)) [1, 0] (by decide)

/-- C4: the readiness handler writes 200 exactly when the aggregate status
is OK and 503 otherwise (and nothing else), and the liveness handler always
writes 200 with an OK-status body. -/
theorem health_endpoints_status_codes (reqCtx : GoContext) (cfg : readyConfig)
    (version environment : String) (checkers : List Checker) (now : Int)
    (sched : Sched) (order : List Nat) (w : ResponseWriter) (logs : List LogEvent)
    (encodeErr : Option String) (hw : w.wroteStatus = none) :
    ((readyHandler reqCtx cfg version environment checkers now sched order w logs
        encodeErr).1.wroteStatus =
      some (if overallStatus (runAllChecks
              (contextWithTimeoutIfNeeded reqCtx cfg.overallTimeout now).1
              checkers sched order) = statusOK then 200 else 503)) ∧
    ((readyHandler reqCtx cfg version environment checkers now sched order w logs
        encodeErr).1.wroteStatus = some 200 ∨
     (readyHandler reqCtx cfg version environment checkers now sched order w logs
        encodeErr).1.wroteStatus = some 503) ∧
    (liveHandler w logs encodeErr).1.wroteStatus = some 200 ∧
    (liveHandler w logs none).1.body = w.body ++ [Payload.live { status := statusOK }] := by
  have hready : ∀ code : Nat, ∀ payload : Payload,
      (respondJSON (disableResponseCacheHeaders w) logs code payload
        encodeErr).1.wroteStatus = some code := by
    intro code payload
    cases encodeErr with
    | none => simp [respondJSON, writeHeader, disableResponseCacheHeaders, hw]
    | some e => simp [respondJSON, writeHeader, disableResponseCacheHeaders, hw]
  refine ⟨?_, ?_, ?_, ?_⟩
  · by_cases hok : overallStatus (runAllChecks
        (contextWithTimeoutIfNeeded reqCtx cfg.overallTimeout now).1
        checkers sched order) = statusOK
    · simpa [readyHandler, hok] using hready 200 _
    · simpa [readyHandler, hok] using hready 503 _
  · by_cases hok : overallStatus (runAllChecks
        (contextWithTimeoutIfNeeded reqCtx cfg.overallTimeout now).1
        checkers sched order) = statusOK
    · exact Or.inl (by simpa [readyHandler, hok] using hready 200 _)
    · exact Or.inr (by simpa [readyHandler, hok] using hready 503 _)
  · simpa [liveHandler] using hready 200 (Payload.live { status := statusOK })
  · simp [liveHandler, respondJSON, writeHeader, disableResponseCacheHeaders, hw]

/-- Witness for C4 at concrete inputs: one failing checker yields 503, the
liveness handler yields 200 with an OK body. -/
theorem health_endpoints_status_codes_witness :
    (readyHandler (GoContext.root none) ⟨0, 0⟩ "v1" "dev"
        [⟨"db", fun _ => (statusError, "down")⟩] 0 (fun _ => (0, 0)) [0]
        ResponseWriter.fresh [] none).1.wroteStatus =
      some (if overallStatus (runAllChecks
              (contextWithTimeoutIfNeeded (GoContext.root none)
                (readyConfig.mk 0 0).overallTimeout 0).1
              [⟨"db", fun _ => (statusError, "down")⟩] (fun _ => (0, 0)) [0])
              = statusOK then 200 else 503) ∧
    (liveHandler ResponseWriter.fresh [] none).1.wroteStatus = some 200 :=
  ⟨(health_endpoints_status_codes (GoContext.root none) ⟨0, 0⟩ "v1" "dev"
      [⟨"db", fun _ => (statusError, "down")⟩] 0 (fun _ => (0, 0)) [0]
      ResponseWriter.fresh [] none rfl).1,
   (health_endpoints_status_codes (GoContext.root none) ⟨0, 0⟩ "v1" "dev"
      [⟨"db", fun _ => (statusError, "down")⟩] 0 (fun _ => (0, 0)) [0]
      ResponseWriter.fresh [] none rfl).2.2.1⟩

/-- C5: a zero or negative overall timeout passes the inbound context
through unchanged with no cancel function (no deadline imposed, no default);
a bounded child context is derived exactly when the timeout is strictly
positive. -/
theorem contextWithTimeoutIfNeeded_passthrough (ctx : GoContext) (duration now : Int) :
    (duration ≤ 0 → contextWithTimeoutIfNeeded ctx duration now = (ctx, false)) ∧
    (0 < duration → contextWithTimeoutIfNeeded ctx duration now =
        (GoContext.withDeadline ctx (now + duration), true)) := by
  constructor
  · intro h
    simp [contextWithTimeoutIfNeeded, h]
  · intro h
    simp [contextWithTimeoutIfNeeded, not_le.mpr h]

/-- Witness for C5: timeout 0 passes through, timeout 5 derives a child
with deadline now + 5. -/
theorem contextWithTimeoutIfNeeded_passthrough_witness :
    contextWithTimeoutIfNeeded (GoContext.root none) 0 7 = (GoContext.root none, false) ∧
    contextWithTimeoutIfNeeded (GoContext.root none) 5 7 =
      (GoContext.withDeadline (GoContext.root none) 12, true) :=
  ⟨(contextWithTimeoutIfNeeded_passthrough (GoContext.root none) 0 7).1 (by decide),
   by simpa using
     (contextWithTimeoutIfNeeded_passthrough (GoContext.root none) 5 7).2 (by decide)⟩

/-- C6: with a strictly positive per-check timeout the check context is a
deadline child of the overall context — it is error-free at an instant
exactly when the overall context is error-free and the per-check deadline
has not passed, so the tighter deadline governs; with a zero or negative
per-check timeout the check runs directly under the overall context. -/
theorem perCheckContext_child_of_overall (ctx : GoContext) (pct now : Int) :
    (0 < pct → perCheckContext ctx pct now = GoContext.withDeadline ctx (now + pct) ∧
       ∀ t : Int, (perCheckContext ctx pct now).errAt t = none ↔
         (ctx.errAt t = none ∧ t < now + pct)) ∧
    (pct ≤ 0 → perCheckContext ctx pct now = ctx) := by
  constructor
  · intro h
    have heq : perCheckContext ctx pct now = GoContext.withDeadline ctx (now + pct) := by
      simp [perCheckContext, h]
    refine ⟨heq, ?_⟩
    intro t
    rw [heq]
    have hrfl : (GoContext.withDeadline ctx (now + pct)).errAt t =
        (match ctx.errAt t with
         | some e => some e
         | none =>
           if now + pct ≤ t then some "context deadline exceeded" else none) := rfl
    rw [hrfl]
    cases hpe : ctx.errAt t with
    | some e => simp
    | none =>
      by_cases ht : now + pct ≤ t
      · simp only [ht, if_true]
        constructor
        · intro hcontra
          cases hcontra
        · intro hcontra
          omega
      · simp only [ht, if_false]
        constructor
        · intro _
          exact ⟨trivial, by omega⟩
        · intro _
          trivial
  · intro h
    simp [perCheckContext, not_lt.mpr h]

/-- Witness for C6 at concrete inputs. -/
theorem perCheckContext_child_of_overall_witness :
    perCheckContext (GoContext.root none) 8 2 =
        GoContext.withDeadline (GoContext.root none) 10 ∧
    perCheckContext (GoContext.root none) 0 2 = GoContext.root none :=
  ⟨by simpa using
      ((perCheckContext_child_of_overall (GoContext.root none) 8 2).1 (by decide)).1,
   (perCheckContext_child_of_overall (GoContext.root none) 0 2).2 (by decide)⟩

/-- C7 counterexample: in the current code (src/health.go lines 240-248)
`respondJSON` discards the result of `Encode` (`_ = json.NewEncoder...`),
so a readiness invocation whose body encoding fails emits no log event at
all — the log stream is left exactly as it was. -/
theorem ready_encoding_failure_emits_no_log :
    (readyHandler (GoContext.root none) ⟨2000000000, 0⟩ "" "" [] 0 (fun _ => (0, 0))
      [] ResponseWriter.fresh [] (some "encoder failure")).2 = [] := by
  decide

/-- C7 amended: on JSON-encoding failure the already-written status code is
unchanged; the earlier handler evolution (src/unnamed/part_002 lines
180-193) emits exactly one structured log event carrying the route, the
intended status code and the error, while the current `respondJSON`
(src/health.go lines 240-248) discards the encoding error and emits no log
event. -/
theorem encoding_failure_status_preserved (w : ResponseWriter) (logs : List LogEvent)
    (code : Nat) (payload : Payload) (e : String) (hw : w.wroteStatus = none) :
    ((respondJSON w logs code payload (some e)).1.wroteStatus = some code ∧
     (respondJSON w logs code payload (some e)).2 = logs) ∧
    ((readyEncodePart002 w logs code payload (some e)).1.wroteStatus = some code ∧
     (readyEncodePart002 w logs code payload (some e)).2 =
       logs ++ [{ handler := "ready", route := "/health/ready",
                  status := code, err := e }]) := by
  refine ⟨⟨?_, rfl⟩, ⟨?_, rfl⟩⟩
  · simp [respondJSON, writeHeader, hw]
  · simp [readyEncodePart002, writeHeader, hw]

/-- Witness for the amended C7 at a concrete input. -/
theorem encoding_failure_status_preserved_witness :
    (respondJSON ResponseWriter.fresh [] 503
        (Payload.live { status := statusOK }) (some "boom")).1.wroteStatus = some 503 ∧
    (readyEncodePart002 ResponseWriter.fresh [] 503
        (Payload.live { status := statusOK }) (some "boom")).2 =
      [{ handler := "ready", route := "/health/ready", status := 503, err := "boom" }] :=
  ⟨(encoding_failure_status_preserved ResponseWriter.fresh [] 503
      (Payload.live { status := statusOK }) "boom" rfl).1.1,
   (encoding_failure_status_preserved ResponseWriter.fresh [] 503
      (Payload.live { status := statusOK }) "boom" rfl).2.2⟩

/-- C8: every produced CheckResult carries a duration rendered from the
elapsed time between the dispatch instant and the completion instant,
whatever the outcome branch, and that duration string is never empty. -/
theorem runCheck_duration_present (ctx : GoContext) (chk : Checker)
    (tStart tEnd : Int) :
    (runCheck ctx chk tStart tEnd).duration = durationString (tEnd - tStart) ∧
    durationString (tEnd - tStart) ≠ "" := by
  constructor
  · rfl
  · unfold durationString
    by_cases h : tEnd - tStart = 0
    · simp [h]
    · simp only [h, if_false]
      intro hcontra
      have hlen := congrArg String.length hcontra
      rw [String.length_append] at hlen
      simp at hlen
      exact absurd hlen.2 (by decide)

/-- Witness slot for C8 (the theorem has no hypothesis; stated at a
concrete input anyway). -/
theorem runCheck_duration_present_witness :
    (runCheck (GoContext.root none) ⟨"db", fun _ => (statusOK, "")⟩ 3 3).duration =
        durationString 0 ∧
    durationString 0 ≠ "" :=
  runCheck_duration_present (GoContext.root none) ⟨"db", fun _ => (statusOK, "")⟩ 3 3

/-- C9: with no timeout configured at all (overall timeout zero or
negative, so the inbound context is passed through unchanged), a parent
request context cancelled before the check completes forces an OK-claiming
checker's result to ERROR with the cancellation message — the override is
driven by the ambient context error, not only by configured budgets. -/
theorem cancelled_parent_overrides_ok (cancelledAt tStart tEnd now overallTimeout : Int)
    (chk : Checker) (hto : overallTimeout ≤ 0) (hc : cancelledAt ≤ tEnd)
    (hok : (chk.check (GoContext.root (some cancelledAt))).1 = statusOK) :
    (contextWithTimeoutIfNeeded (GoContext.root (some cancelledAt)) overallTimeout now).1
        = GoContext.root (some cancelledAt) ∧
    (runCheck (GoContext.root (some cancelledAt)) chk tStart tEnd).status = statusError ∧
    (runCheck (GoContext.root (some cancelledAt)) chk tStart tEnd).message =
      (if (chk.check (GoContext.root (some cancelledAt))).2 = ""
       then "context canceled"
       else (chk.check (GoContext.root (some cancelledAt))).2 ++ "; " ++
         "context canceled") := by
  have hctx : (contextWithTimeoutIfNeeded (GoContext.root (some cancelledAt))
      overallTimeout now).1 = GoContext.root (some cancelledAt) := by
    simp [contextWithTimeoutIfNeeded, hto]
  have herr : (GoContext.root (some cancelledAt)).errAt tEnd = some "context canceled" := by
    simp [GoContext.errAt, hc]
  have h := (runCheck_override_exactly_on_ok_with_ctx_error
    (GoContext.root (some cancelledAt)) chk tStart tEnd).1 "context canceled" herr hok
  exact ⟨hctx, h.1, h.2⟩

/-- Witness for C9: cancellation at instant 0, check completing at 5, no
timeout configured. -/
theorem cancelled_parent_overrides_ok_witness :
    (contextWithTimeoutIfNeeded (GoContext.root (some 0)) 0 0).1
        = GoContext.root (some 0) ∧
    (runCheck (GoContext.root (some 0)) ⟨"db", fun _ => (statusOK, "")⟩ 0 5).status =
        statusError ∧
    (runCheck (GoContext.root (some 0)) ⟨"db", fun _ => (statusOK, "")⟩ 0 5).message =
      (if (Checker.check ⟨"db", fun _ => (statusOK, "")⟩ (GoContext.root (some 0))).2 = ""
       then "context canceled"
       else (Checker.check ⟨"db", fun _ => (statusOK, "")⟩ (GoContext.root (some 0))).2 ++
         "; " ++ "context canceled") :=
  cancelled_parent_overrides_ok 0 0 5 0 0 ⟨"db", fun _ => (statusOK, "")⟩
    (by decide) (by decide) rfl

/-- C10: Status is an open string type, not a closed enumeration: any
checker status other than "ok" — such as "degraded", which is neither the
OK nor the ERROR constant — is carried verbatim into the check entry (never
normalized to "error"), and its presence makes the aggregate status ERROR. -/
theorem open_status_passthrough (ctx : GoContext) (name msg : String)
    (tStart tEnd : Int) (st : Status) (hst : st ≠ statusOK) :
    ("degraded" : Status) ≠ statusOK ∧ ("degraded" : Status) ≠ statusError ∧
    (runCheck ctx ⟨name, fun _ => (st, msg)⟩ tStart tEnd).status = st ∧
    overallStatus [runCheck ctx ⟨name, fun _ => (st, msg)⟩ tStart tEnd] = statusError := by
  have hpass : (runCheck ctx ⟨name, fun _ => (st, msg)⟩ tStart tEnd).status = st := by
    cases he : ctx.errAt tEnd with
    | none => simp [runCheck, he]
    | some e => simp [runCheck, he, hst]
  refine ⟨by decide, by decide, hpass, ?_⟩
  simp [overallStatus, hpass, hst]

/-- Witness for C10 at the concrete status "degraded". -/
theorem open_status_passthrough_witness :
    ("degraded" : Status) ≠ statusOK ∧ ("degraded" : Status) ≠ statusError ∧
    (runCheck (GoContext.root none) ⟨"db", fun _ => ("degraded", "partial")⟩ 0 1).status
        = "degraded" ∧
    overallStatus [runCheck (GoContext.root none)
        ⟨"db", fun _ => ("degraded", "partial")⟩ 0 1] = statusError :=
  open_status_passthrough (GoContext.root none) "db" "partial" 0 1 "degraded" (by decide)

end Vitals
